import Mathlib

/-!
Shallow embedding of the ink! staking contract (`src/staking/lib.rs`).

Modelling conventions:
* `u32` / `u64` / `u128` values are `Nat`s; checked arithmetic (ink contracts
  are built with overflow checks) is modelled by operations returning
  `Outcome`, where `.trap` is a panicked/aborted call (assertion failure or
  arithmetic overflow/underflow) and `.err` is a recoverable `Result::Err`.
  Rust `as` casts that can truncate are modelled with `% 2^w`.
* `ink::storage::Mapping` is modelled as a function `AccountId → Option β`;
  `Mapping::insert` is pointwise functional update (insert never deletes).
* The two external transfer collaborators (native `env().transfer` and the
  PSP22 reward-token `transfer`) are out of scope per the spec; they are
  modelled as always succeeding, with the requested transfers recorded in
  the `native_transfers` / `token_transfers` logs so that theorems can talk
  about what was paid out.
* Events are pure side-channel notifications and are not modelled.
* The host passes `block_timestamp` and `caller` into each message; they are
  explicit `now` / `caller` arguments here.
* The unused `level_periods` and `operators` mappings (written only by the
  constructor, never read) are omitted from the state.
-/

abbrev AccountId := Nat

inductive Outcome (α : Type) where
  | ok : α → Outcome α
  | err : String → Outcome α
  | trap : Outcome α
deriving DecidableEq

def Outcome.bind {α β : Type} : Outcome α → (α → Outcome β) → Outcome β
  | .ok a, f => f a
  | .err e, _ => .err e
  | .trap, _ => .trap

def Outcome.isOk {α : Type} : Outcome α → Bool
  | .ok _ => true
  | _ => false

def U32M : Nat := 2 ^ 32
def U64M : Nat := 2 ^ 64
def U128M : Nat := 2 ^ 128

/-- Checked `u64` addition: traps on overflow. -/
def cadd64 (a b : Nat) : Outcome Nat := if a + b < U64M then .ok (a + b) else .trap

/-- Checked `u64` subtraction: traps on underflow. -/
def csub64 (a b : Nat) : Outcome Nat := if b ≤ a then .ok (a - b) else .trap

/-- Checked `u64` multiplication: traps on overflow. -/
def cmul64 (a b : Nat) : Outcome Nat := if a * b < U64M then .ok (a * b) else .trap

/-- Checked `u32` multiplication: traps on overflow. -/
def cmul32 (a b : Nat) : Outcome Nat := if a * b < U32M then .ok (a * b) else .trap

/-- Checked `u128` addition: traps on overflow. -/
def cadd128 (a b : Nat) : Outcome Nat := if a + b < U128M then .ok (a + b) else .trap

/-- Checked `u128` multiplication: traps on overflow. -/
def cmul128 (a b : Nat) : Outcome Nat := if a * b < U128M then .ok (a * b) else .trap

/-- `StakeInfo` struct: `amount: u128`, `started_at: u64`, `period: u32`,
`active_until: u64`. -/
structure StakeInfo where
  amount : Nat
  started_at : Nat
  period : Nat
  active_until : Nat
deriving DecidableEq

/-- The `Staking` contract storage (minus the unused `level_periods` /
`operators` mappings), extended with the two transfer logs standing for the
external collaborators. -/
structure Staking where
  stakes : AccountId → Option StakeInfo
  last_reward_claims : AccountId → Option Nat
  available_periods : List Nat
  reward_token : AccountId
  total_staked : Nat
  rewards_balance : Nat
  reward_rate : Nat
  early_withdraw_fee : Nat
  reward_conversion_rate : Nat
  native_transfers : List (AccountId × Nat)
  token_transfers : List (AccountId × Nat)

/-- The `new` constructor. -/
def Staking.new (reward_token : AccountId) (reward_conversion_rate : Nat) : Staking :=
  { stakes := fun _ => none
    last_reward_claims := fun _ => none
    available_periods := [6, 12]
    reward_token := reward_token
    total_staked := 0
    rewards_balance := 0
    reward_rate := 5
    early_withdraw_fee := 10
    reward_conversion_rate := reward_conversion_rate
    native_transfers := []
    token_transfers := [] }

/-- Extract the post-state of a successful call (dummy state otherwise). -/
def okState (o : Outcome Staking) : Staking :=
  match o with
  | .ok s => s
  | _ => Staking.new 0 0

/-- `let time = if block_timestamp > active_until { active_until } else { now }`
inside `reward_amount`. -/
def effectiveTime (now active_until : Nat) : Nat :=
  if now > active_until then active_until else now

/-- `self.last_reward_claims.get(&account).unwrap_or(0)`. -/
def cursorOf (s : Staking) (account : AccountId) : Nat :=
  (s.last_reward_claims account).getD 0

/-- `Mapping::insert` on `stakes`. -/
def setStake (s : Staking) (account : AccountId) (v : StakeInfo) : Staking :=
  { s with stakes := fun x => if x = account then some v else s.stakes x }

/-- `Mapping::insert` on `last_reward_claims`. -/
def setCursor (s : Staking) (account : AccountId) (v : Nat) : Staking :=
  { s with last_reward_claims := fun x => if x = account then some v else s.last_reward_claims x }

/-- `_validate_period`. -/
def _validate_period (s : Staking) (period : Nat) : Outcome Unit :=
  if period ∈ s.available_periods then .ok () else .err "period not exist"

/-- `reward_amount`: elapsed whole periods (as the truncated `u32` the code
returns) and the owed reward. The `u64` subtraction `time - last_claim` traps
on underflow; the `u128` multiplications are checked left-to-right as in
`amount * reward_rate * periods as u128 * 100`. -/
def reward_amount (s : Staking) (now : Nat) (account : AccountId) : Outcome (Nat × Nat) :=
  match s.stakes account with
  | none => .err "Stake info not found"
  | some stake_info =>
    let time := effectiveTime now stake_info.active_until
    (csub64 time (cursorOf s account)).bind fun diff =>
    let periods_passed := diff / 86400
    (cmul128 stake_info.amount s.reward_rate).bind fun x =>
    (cmul128 x periods_passed).bind fun y =>
    (cmul128 y 100).bind fun z =>
    Outcome.ok (periods_passed % U32M, z / 36000)

/-- `get_staking_period`: `(active_until - started_at) / 86400` as `u32`. -/
def get_staking_period (s : Staking) (account : AccountId) : Outcome Nat :=
  match s.stakes account with
  | none => .err "Stake info not found"
  | some stake_info =>
    (csub64 stake_info.active_until stake_info.started_at).bind fun d =>
    Outcome.ok ((d / 86400) % U32M)

/-- `available_rewards`. -/
def available_rewards (s : Staking) (now : Nat) (account : AccountId) : Outcome Nat :=
  (reward_amount s now account).bind fun pr => Outcome.ok pr.2

/-- `passed_reward_periods`. -/
def passed_reward_periods (s : Staking) (now : Nat) (account : AccountId) : Outcome Nat :=
  (reward_amount s now account).bind fun pr => Outcome.ok pr.1

/-- `_next_reward_date`. -/
def _next_reward_date (s : Staking) (now : Nat) (account : AccountId) : Outcome Nat :=
  match s.last_reward_claims account with
  | none => .err "Last reward claim not found"
  | some _ =>
    match s.stakes account with
    | none => .err "Stake info not found"
    | some stake_info =>
      if now > stake_info.active_until then .ok stake_info.active_until
      else
        (csub64 now stake_info.started_at).bind fun d =>
        let passed_periods := d / 86400
        (cmul64 (passed_periods + 1) 86400).bind fun m =>
        cadd64 m stake_info.started_at

/-- `next_reward_date` message. -/
def next_reward_date (s : Staking) (now : Nat) (account : AccountId) : Outcome Nat :=
  _next_reward_date s now account

/-- `all_stake_info`. -/
def all_stake_info (s : Staking) (now : Nat) (account : AccountId) :
    Outcome (Nat × Nat × Nat × Nat × Nat × Nat) :=
  match s.stakes account with
  | none => .err "Stake info not found"
  | some stake_info =>
    if stake_info.amount ≠ 0 then
      (reward_amount s now account).bind fun pr =>
      (_next_reward_date s now account).bind fun nx =>
      Outcome.ok (stake_info.amount, stake_info.started_at, stake_info.period,
        stake_info.active_until, pr.2, nx)
    else
      Outcome.ok (stake_info.amount, stake_info.started_at, stake_info.period,
        stake_info.active_until, 0, 0)

/-- `_set_stake_info` (always `Ok` in the source; pure here). -/
def _set_stake_info (s : Staking) (account : AccountId) (amount periods started_at active_until : Nat) :
    Staking :=
  setStake s account
    { amount := amount, started_at := started_at, period := periods, active_until := active_until }

/-- `_stake`: shared deposit/extend helper. Note the `until` computation:
recomputed from `now` only when the freshly deposited `amount == 0` (the
extend path); otherwise `map_or(0, |info| info.active_until)` keeps the
stored value, defaulting to `0` when no record exists. -/
def _stake (s : Staking) (now : Nat) (account : AccountId) (periods amount : Nat) :
    Outcome Staking :=
  (match s.stakes account with
   | none => Outcome.ok amount
   | some info => cadd128 info.amount amount).bind fun new_amount =>
  (_validate_period s periods).bind fun _ =>
  (if amount = 0 then
    (cmul64 periods 86400).bind fun a =>
    (cmul64 a 30).bind fun b =>
    cadd64 now b
   else
    Outcome.ok (match s.stakes account with
      | none => 0
      | some info => info.active_until)).bind fun new_until =>
  let s1 := _set_stake_info s account new_amount periods now new_until
  (cadd128 s1.total_staked amount).bind fun ts =>
  Outcome.ok { s1 with total_staked := ts }

/-- `_withdraw`: zero the position, then native-transfer `amount` back. -/
def _withdraw (s : Staking) (account : AccountId) (amount : Nat) : Outcome Staking :=
  let s1 := _set_stake_info s account 0 0 0 0
  Outcome.ok { s1 with native_transfers := s1.native_transfers ++ [(account, amount)] }

/-- `_collect_rewards`: the shared reward-collection helper. `not_direct`
is `true` for the stake/withdraw/extend callers and `false` for `claim`.
The two `assert!`s are traps; the cursor advance uses the truncated `u32`
period count with a checked `u32` multiplication, as in
`(86400 * periods) as u64`. -/
def _collect_rewards (s : Staking) (now : Nat) (account : AccountId) (not_direct : Bool) :
    Outcome Staking :=
  match s.stakes account with
  | none => .ok s
  | some stake_info =>
    if stake_info.amount > 0 then
      (reward_amount s now account).bind fun pr =>
      if not_direct = true ∧ pr.1 = 0 then .ok s
      else if s.rewards_balance ≥ pr.2 then
        if pr.1 > 0 then
          (cmul32 86400 pr.1).bind fun adv =>
          (cadd64 (cursorOf s account) adv).bind fun nc =>
          let s1 := { setCursor s account nc with rewards_balance := s.rewards_balance - pr.2 }
          (cmul128 pr.2 s.reward_conversion_rate).bind fun conv =>
          Outcome.ok { s1 with token_transfers := s1.token_transfers ++ [(account, conv)] }
        else .trap
      else .trap
    else .ok s

/-- `stake` message: `assert!(value > 0)`, forced non-direct collection when
topping up, then `_stake`. -/
def stake (s : Staking) (now : Nat) (caller : AccountId) (period value : Nat) :
    Outcome Staking :=
  if value > 0 then
    (if (match s.stakes caller with | none => 0 | some info => info.amount) ≠ 0 then
      _collect_rewards s now caller true
     else Outcome.ok s).bind fun s1 =>
    _stake s1 now caller period value
  else .trap

/-- `withdraw` message. -/
def withdraw (s : Staking) (now : Nat) (caller : AccountId) : Outcome Staking :=
  match s.stakes caller with
  | none => .err "no stake"
  | some _ =>
    (_collect_rewards s now caller true).bind fun s1 =>
    match s1.stakes caller with
    | none => .err "Stake info not found"
    | some info => _withdraw s1 caller info.amount

/-- `emergency_withdraw` message. -/
def emergency_withdraw (s : Staking) (caller : AccountId) : Outcome Staking :=
  match s.stakes caller with
  | none => .err "no stake"
  | some info =>
    (_withdraw s caller info.amount).bind fun s1 =>
    Outcome.ok (setStake s1 caller { amount := 0, started_at := 0, period := 0, active_until := 0 })

/-- `extend` message: the two `assert!`s (`stake required`, `still active`)
are traps. -/
def extend (s : Staking) (now : Nat) (caller : AccountId) (period : Nat) : Outcome Staking :=
  match s.stakes caller with
  | none => .err "Stake info not found"
  | some stake_info =>
    if stake_info.amount > 0 then
      if stake_info.active_until < now then
        (_collect_rewards s now caller true).bind fun s1 =>
        _stake s1 now caller period 0
      else .trap
    else .trap

/-- `claim` message: direct-mode reward collection. -/
def claim (s : Staking) (now : Nat) (caller : AccountId) : Outcome Staking :=
  match s.stakes caller with
  | none => .err "no stake"
  | some _ => _collect_rewards s now caller false

/-- `update_rewards_pool` message: `assert!(value > 0)` then checked add. -/
def update_rewards_pool (s : Staking) (value : Nat) : Outcome Staking :=
  if value > 0 then
    (cadd128 s.rewards_balance value).bind fun nb =>
    Outcome.ok { s with rewards_balance := nb }
  else .trap


/-- `map(|info| info.amount).unwrap_or(0)`: the stored principal, `0` when no
record exists. -/
def prevAmount (s : Staking) (a : AccountId) : Nat :=
  match s.stakes a with
  | none => 0
  | some info => info.amount

/-- `map_or(0, |stake_info| stake_info.active_until)`: the stored
`active_until`, `0` when no record exists. -/
def prevUntil (s : Staking) (a : AccountId) : Nat :=
  match s.stakes a with
  | none => 0
  | some info => info.active_until

/-! Concrete states used by witnesses and counterexamples.

`sT0`–`sT6` is a trace of public calls reaching a state whose accrual cursor
exceeds the effective time `min(now, active_until)`:
fund the pool, stake (which stores `active_until = 0`), extend after the
instantly-matured lock, claim two accrued periods (advancing the cursor to
`172800`), emergency-withdraw (zeroing the position but not the cursor),
and stake afresh (which re-stores `active_until = 0`). -/

def sT0 : Staking := Staking.new 0 1

def sT1 : Staking := okState (update_rewards_pool sT0 1000)

def sT2 : Staking := okState (stake sT1 0 7 6 100)

def sT3 : Staking := okState (extend sT2 10 7 6)

def sT4 : Staking := okState (claim sT3 172810 7)

def sT5 : Staking := okState (emergency_withdraw sT4 7)

def sT6 : Staking := okState (stake sT5 172900 7 6 50)

/-- A single-withdrawal trace: a fresh deposit of `100` at time `5`. -/
def sW1 : Staking := okState (stake (Staking.new 0 1) 5 7 6 100)

/-- The state after withdrawing the `sW1` position. -/
def sW2 : Staking := okState (withdraw sW1 5 7)

/-- A hand-built active position used to instantiate hypotheses concretely:
account `7` holds `100` staked at `0` until `50`, with cursor `20` and a
funded pool. -/
def sW : Staking :=
  { stakes := fun x => if x = 7 then some { amount := 100, started_at := 0, period := 6, active_until := 50 } else none
    last_reward_claims := fun x => if x = 7 then some 20 else none
    available_periods := [6, 12]
    reward_token := 0
    total_staked := 100
    rewards_balance := 1000
    reward_rate := 5
    early_withdraw_fee := 10
    reward_conversion_rate := 1
    native_transfers := []
    token_transfers := [] }

/-- A hand-built position matching the spec's worked reward example:
`amount = 10000`, cursor absent, three whole periods elapsed at
`now = 3 * 86400`. -/
def sC5 : Staking :=
  { stakes := fun x => if x = 7 then some { amount := 10000, started_at := 0, period := 6, active_until := 1000000000 } else none
    last_reward_claims := fun _ => none
    available_periods := [6, 12]
    reward_token := 0
    total_staked := 10000
    rewards_balance := 100000
    reward_rate := 5
    early_withdraw_fee := 10
    reward_conversion_rate := 1
    native_transfers := []
    token_transfers := [] }

/-- A hand-built position whose accrued reward (13888) exceeds the pool
balance (100). -/
def sC6 : Staking :=
  { stakes := fun x => if x = 7 then some { amount := 1000000, started_at := 0, period := 6, active_until := 1000000000 } else none
    last_reward_claims := fun _ => none
    available_periods := [6, 12]
    reward_token := 0
    total_staked := 1000000
    rewards_balance := 100
    reward_rate := 5
    early_withdraw_fee := 10
    reward_conversion_rate := 1
    native_transfers := []
    token_transfers := [] }

/-- A hand-built matured position with a nonzero cursor: two whole periods
lie between the cursor (10000) and maturity (200000). -/
def sC8 : Staking :=
  { stakes := fun x => if x = 7 then some { amount := 7000, started_at := 0, period := 12, active_until := 200000 } else none
    last_reward_claims := fun x => if x = 7 then some 10000 else none
    available_periods := [6, 12]
    reward_token := 0
    total_staked := 7000
    rewards_balance := 100000
    reward_rate := 5
    early_withdraw_fee := 10
    reward_conversion_rate := 1
    native_transfers := []
    token_transfers := [] }

/-! ## Basic lemmas about `Outcome` and the checked arithmetic -/

@[simp] theorem Outcome.ok_bind {α β : Type} (a : α) (f : α → Outcome β) :
    (Outcome.ok a).bind f = f a := rfl

@[simp] theorem Outcome.err_bind {α β : Type} (e : String) (f : α → Outcome β) :
    (Outcome.err e : Outcome α).bind f = .err e := rfl

@[simp] theorem Outcome.trap_bind {α β : Type} (f : α → Outcome β) :
    (Outcome.trap : Outcome α).bind f = .trap := rfl

theorem Outcome.bind_eq_ok {α β : Type} {o : Outcome α} {f : α → Outcome β} {b : β} :
    o.bind f = .ok b ↔ ∃ a, o = .ok a ∧ f a = .ok b := by
  cases o <;> simp

theorem cadd64_ok {a b : Nat} (h : a + b < U64M) : cadd64 a b = .ok (a + b) := by
  simp [cadd64, h]

theorem csub64_ok {a b : Nat} (h : b ≤ a) : csub64 a b = .ok (a - b) := by
  simp [csub64, h]

theorem csub64_trap {a b : Nat} (h : a < b) : csub64 a b = .trap := by
  simp only [csub64, if_neg (by omega : ¬ b ≤ a)]

theorem cmul64_ok {a b : Nat} (h : a * b < U64M) : cmul64 a b = .ok (a * b) := by
  simp [cmul64, h]

theorem cmul32_ok {a b : Nat} (h : a * b < U32M) : cmul32 a b = .ok (a * b) := by
  simp [cmul32, h]

theorem cadd128_ok {a b : Nat} (h : a + b < U128M) : cadd128 a b = .ok (a + b) := by
  simp [cadd128, h]

theorem cmul128_ok {a b : Nat} (h : a * b < U128M) : cmul128 a b = .ok (a * b) := by
  simp [cmul128, h]

theorem cadd128_eq_ok {a b c : Nat} (h : cadd128 a b = .ok c) : c = a + b := by
  unfold cadd128 at h
  split at h <;> simp_all

theorem cadd64_eq_ok {a b c : Nat} (h : cadd64 a b = .ok c) : c = a + b := by
  unfold cadd64 at h
  split at h <;> simp_all

theorem cmul64_eq_ok {a b c : Nat} (h : cmul64 a b = .ok c) : c = a * b := by
  unfold cmul64 at h
  split at h <;> simp_all

/-! ## Frame lemmas for the internal helpers -/

/-- A successful `_collect_rewards` touches only the cursor, the pool balance
and the token-transfer log. -/
theorem _collect_rewards_ok_inv {s s' : Staking} {now a : Nat} {d : Bool}
    (h : _collect_rewards s now a d = .ok s') :
    s'.stakes = s.stakes ∧ s'.available_periods = s.available_periods ∧
    s'.native_transfers = s.native_transfers ∧ s'.total_staked = s.total_staked := by
  unfold _collect_rewards at h
  split at h
  · injection h with h; subst h; exact ⟨rfl, rfl, rfl, rfl⟩
  · split at h
    · rw [Outcome.bind_eq_ok] at h
      obtain ⟨pr, hra, h⟩ := h
      split at h
      · injection h with h; subst h; exact ⟨rfl, rfl, rfl, rfl⟩
      · split at h
        · split at h
          · rw [Outcome.bind_eq_ok] at h
            obtain ⟨adv, hadv, h⟩ := h
            rw [Outcome.bind_eq_ok] at h
            obtain ⟨nc, hnc, h⟩ := h
            rw [Outcome.bind_eq_ok] at h
            obtain ⟨conv, hconv, h⟩ := h
            injection h with h; subst h
            simp [setCursor]
          · exact Outcome.noConfusion h
        · exact Outcome.noConfusion h
    · injection h with h; subst h; exact ⟨rfl, rfl, rfl, rfl⟩

/-- A successful `_collect_rewards` never removes a cursor entry and never
decreases one. -/
theorem _collect_rewards_ok_cursor {s s' : Staking} {now a : Nat} {d : Bool}
    (h : _collect_rewards s now a d = .ok s') {x c : Nat}
    (hx : s.last_reward_claims x = some c) :
    ∃ c', s'.last_reward_claims x = some c' ∧ c ≤ c' := by
  unfold _collect_rewards at h
  split at h
  · injection h with h; subst h; exact ⟨c, hx, le_refl c⟩
  · split at h
    · rw [Outcome.bind_eq_ok] at h
      obtain ⟨pr, hra, h⟩ := h
      split at h
      · injection h with h; subst h; exact ⟨c, hx, le_refl c⟩
      · split at h
        · split at h
          · rw [Outcome.bind_eq_ok] at h
            obtain ⟨adv, hadv, h⟩ := h
            rw [Outcome.bind_eq_ok] at h
            obtain ⟨nc, hnc, h⟩ := h
            rw [Outcome.bind_eq_ok] at h
            obtain ⟨conv, hconv, h⟩ := h
            injection h with h; subst h
            by_cases hxa : x = a
            · subst hxa
              refine ⟨nc, by simp [setCursor], ?_⟩
              have hnc' := cadd64_eq_ok hnc
              have : cursorOf s x = c := by simp [cursorOf, hx]
              omega
            · exact ⟨c, by simp [setCursor, hxa, hx], le_refl c⟩
          · exact Outcome.noConfusion h
        · exact Outcome.noConfusion h
    · injection h with h; subst h; exact ⟨c, hx, le_refl c⟩

/-- Inversion of a successful `_stake`: the stored position, and the fields
`_stake` does not touch. -/
theorem _stake_ok_inv {s s' : Staking} {now a p v : Nat}
    (h : _stake s now a p v = .ok s') :
    s'.stakes a = some
      { amount := prevAmount s a + v, started_at := now, period := p,
        active_until := if v = 0 then now + p * 86400 * 30 else prevUntil s a } ∧
    s'.last_reward_claims = s.last_reward_claims ∧
    s'.rewards_balance = s.rewards_balance ∧
    s'.available_periods = s.available_periods ∧
    (∀ x, x ≠ a → s'.stakes x = s.stakes x) := by
  unfold _stake at h
  rw [Outcome.bind_eq_ok] at h
  obtain ⟨na, hna, h⟩ := h
  rw [Outcome.bind_eq_ok] at h
  obtain ⟨un, hval, h⟩ := h
  rw [Outcome.bind_eq_ok] at h
  obtain ⟨u, hu, h⟩ := h
  rw [Outcome.bind_eq_ok] at h
  obtain ⟨ts, hts, h⟩ := h
  injection h with h; subst h
  have hna' : na = prevAmount s a + v := by
    unfold prevAmount
    cases hs : s.stakes a <;> rw [hs] at hna
    · simp_all
    · exact (cadd128_eq_ok hna)
  have hu' : u = if v = 0 then now + p * 86400 * 30 else prevUntil s a := by
    split at hu
    · rw [Outcome.bind_eq_ok] at hu
      obtain ⟨m1, hm1, hu⟩ := hu
      rw [Outcome.bind_eq_ok] at hu
      obtain ⟨m2, hm2, hu⟩ := hu
      have := cmul64_eq_ok hm1
      have := cmul64_eq_ok hm2
      have := cadd64_eq_ok hu
      simp_all
    · unfold prevUntil
      cases hs : s.stakes a <;> rw [hs] at hu <;> simp_all
  subst hna' hu'
  refine ⟨by simp [_set_stake_info, setStake], rfl, rfl, rfl, ?_⟩
  intro x hxa
  simp [_set_stake_info, setStake, hxa]

/-- `_withdraw` zeroes the position, appends one native transfer, and touches
nothing else. -/
theorem _withdraw_ok_inv {s s' : Staking} {a amt : Nat}
    (h : _withdraw s a amt = .ok s') :
    s'.stakes a = some { amount := 0, started_at := 0, period := 0, active_until := 0 } ∧
    s'.native_transfers = s.native_transfers ++ [(a, amt)] ∧
    s'.last_reward_claims = s.last_reward_claims ∧
    s'.rewards_balance = s.rewards_balance := by
  unfold _withdraw at h
  injection h with h; subst h
  exact ⟨by simp [_set_stake_info, setStake], rfl, rfl, rfl⟩

/-! ## Behavior of `reward_amount` and `_collect_rewards` -/

/-- When the cursor does not exceed the effective time and the `u128`
products fit, `reward_amount` returns the elapsed whole periods (truncated to
`u32`) and `amount * reward_rate * periods * 100 / 36000`. -/
theorem reward_amount_eq {s : Staking} {now a : Nat} {info : StakeInfo}
    (h : s.stakes a = some info)
    (hc : cursorOf s a ≤ effectiveTime now info.active_until)
    (hb1 : info.amount * s.reward_rate < U128M)
    (hb3 : info.amount * s.reward_rate *
      ((effectiveTime now info.active_until - cursorOf s a) / 86400) * 100 < U128M) :
    reward_amount s now a = .ok
      (((effectiveTime now info.active_until - cursorOf s a) / 86400) % U32M,
       info.amount * s.reward_rate *
         ((effectiveTime now info.active_until - cursorOf s a) / 86400) * 100 / 36000) := by
  have hb2 : info.amount * s.reward_rate *
      ((effectiveTime now info.active_until - cursorOf s a) / 86400) < U128M :=
    lt_of_le_of_lt (Nat.le_mul_of_pos_right _ (by norm_num)) hb3
  unfold reward_amount
  rw [h]
  simp only [csub64_ok hc, Outcome.ok_bind, cmul128_ok hb1, cmul128_ok hb2, cmul128_ok hb3]

/-- When the cursor exceeds the effective time, `reward_amount` traps on the
`u64` underflow of `time - last_claim`. -/
theorem reward_amount_trap {s : Staking} {now a : Nat} {info : StakeInfo}
    (h : s.stakes a = some info)
    (hcur : effectiveTime now info.active_until < cursorOf s a) :
    reward_amount s now a = .trap := by
  unfold reward_amount
  rw [h]
  simp only [csub64_trap hcur, Outcome.trap_bind]

/-- Zero elapsed whole periods, non-direct mode: `_collect_rewards` is a
no-op returning the state unchanged. -/
theorem _collect_rewards_zero_nd {s : Staking} {now a : Nat} {info : StakeInfo}
    (h : s.stakes a = some info) (hamt : 0 < info.amount)
    (hc : cursorOf s a ≤ effectiveTime now info.active_until)
    (hz : effectiveTime now info.active_until - cursorOf s a < 86400)
    (hb1 : info.amount * s.reward_rate < U128M) :
    _collect_rewards s now a true = .ok s := by
  have hp : (effectiveTime now info.active_until - cursorOf s a) / 86400 = 0 :=
    Nat.div_eq_of_lt hz
  have hra := reward_amount_eq h hc hb1 (by rw [hp]; simpa using Nat.pos_pow_of_pos 128 (by norm_num))
  rw [hp] at hra
  simp only [Nat.mul_zero, Nat.zero_mul, Nat.zero_mod, Nat.zero_div] at hra
  unfold _collect_rewards
  rw [h]
  simp only [hamt, if_pos, hra, Outcome.ok_bind]
  simp

/-- Zero elapsed whole periods, direct mode (`claim`): the `assert!(periods >
0, "too early")` fires and the call traps. -/
theorem _collect_rewards_zero_direct {s : Staking} {now a : Nat} {info : StakeInfo}
    (h : s.stakes a = some info) (hamt : 0 < info.amount)
    (hc : cursorOf s a ≤ effectiveTime now info.active_until)
    (hz : effectiveTime now info.active_until - cursorOf s a < 86400)
    (hb1 : info.amount * s.reward_rate < U128M) :
    _collect_rewards s now a false = .trap := by
  have hp : (effectiveTime now info.active_until - cursorOf s a) / 86400 = 0 :=
    Nat.div_eq_of_lt hz
  have hra := reward_amount_eq h hc hb1 (by rw [hp]; simpa using Nat.pos_pow_of_pos 128 (by norm_num))
  rw [hp] at hra
  simp only [Nat.mul_zero, Nat.zero_mul, Nat.zero_mod, Nat.zero_div] at hra
  unfold _collect_rewards
  rw [h]
  simp only [hamt, if_pos, hra, Outcome.ok_bind]
  simp

/-! ## Claims -/

/-- Claim C5: for every position and every number `p` of elapsed whole
periods, the computed reward is `floor(amount * 5 * p * 100 / 36000)`, with
all multiplications (checked, in `u128`) performed before the single
truncating division; in particular `amount = 10000`, `p = 3` gives `416`. -/
theorem C5_reward_formula :
    (∀ (s : Staking) (now a p : Nat) (info : StakeInfo),
      s.stakes a = some info → s.reward_rate = 5 →
      p = (effectiveTime now info.active_until - cursorOf s a) / 86400 →
      cursorOf s a ≤ effectiveTime now info.active_until →
      info.amount * 5 < U128M → info.amount * 5 * p * 100 < U128M →
      reward_amount s now a = .ok (p % U32M, info.amount * 5 * p * 100 / 36000)) ∧
    reward_amount sC5 (3 * 86400) 7 = .ok (3, 416) := by
  constructor
  · intro s now a p info h hr hp hc hb1 hb3
    subst hp
    rw [reward_amount_eq h hc (by rw [hr]; exact hb1) (by rw [hr]; exact hb3), hr]
  · decide

/-- Witness for C5: two whole periods on the `sC5` position. -/
theorem C5_reward_formula_witness :
    reward_amount sC5 (2 * 86400) 7 = .ok (2 % U32M, 10000 * 5 * 2 * 100 / 36000) := by
  have h := C5_reward_formula.1 sC5 (2 * 86400) 7 2
    { amount := 10000, started_at := 0, period := 6, active_until := 1000000000 }
    (by decide) (by decide) (by decide) (by decide) (by decide) (by decide)
  exact h

/-- Claim C6: a `claim` whose computed reward exceeds the current
`rewards_balance` trips the `assert!(rewards_balance >= reward)` and the call
traps (an unrecoverable abort, not a typed error). Under the host's
all-or-nothing call model a trapped call commits none of its writes, so the
cursor, the pool and the position are all as before the call: in this
embedding a `.trap` carries no post-state at all. -/
theorem C6_insolvent_claim_traps {s : Staking} {now a : Nat} {info : StakeInfo}
    (h : s.stakes a = some info) (hamt : 0 < info.amount)
    (hc : cursorOf s a ≤ effectiveTime now info.active_until)
    (hb1 : info.amount * s.reward_rate < U128M)
    (hb3 : info.amount * s.reward_rate *
      ((effectiveTime now info.active_until - cursorOf s a) / 86400) * 100 < U128M)
    (hpoor : s.rewards_balance < info.amount * s.reward_rate *
      ((effectiveTime now info.active_until - cursorOf s a) / 86400) * 100 / 36000) :
    claim s now a = .trap := by
  unfold claim
  rw [h]
  unfold _collect_rewards
  rw [h]
  simp only [hamt, if_pos, reward_amount_eq h hc hb1 hb3, Outcome.ok_bind]
  simp [Nat.not_le.mpr hpoor]

/-- Witness for C6: the `sC6` position owes `13888` against a pool of `100`. -/
theorem C6_insolvent_claim_traps_witness : claim sC6 86400 7 = .trap :=
  @C6_insolvent_claim_traps sC6 86400 7
    { amount := 1000000, started_at := 0, period := 6, active_until := 1000000000 }
    (by decide) (by decide) (by decide) (by decide) (by decide) (by decide)

/-- Claim C8: elapsed periods are computed against the effective time
`t = min(now, active_until)` (the code's `if now > active_until` clamp),
with the cursor defaulting to `0` when absent (`cursorOf`); the returned pair
is `(floor((t - cursor)/86400), reward)`, and for `now ≥ active_until` the
result is identical to the result at `now = active_until` — no accrual past
maturity. -/
theorem C8_maturity_clamp {s : Staking} {now a : Nat} {info : StakeInfo}
    (h : s.stakes a = some info) :
    (cursorOf s a ≤ effectiveTime now info.active_until →
     (effectiveTime now info.active_until - cursorOf s a) / 86400 < U32M →
     info.amount * s.reward_rate < U128M →
     info.amount * s.reward_rate *
       ((effectiveTime now info.active_until - cursorOf s a) / 86400) * 100 < U128M →
     reward_amount s now a = .ok
       ((effectiveTime now info.active_until - cursorOf s a) / 86400,
        info.amount * s.reward_rate *
          ((effectiveTime now info.active_until - cursorOf s a) / 86400) * 100 / 36000)) ∧
    (info.active_until ≤ now → reward_amount s now a = reward_amount s info.active_until a) ∧
    effectiveTime now info.active_until = min now info.active_until := by
  refine ⟨?_, ?_, ?_⟩
  · intro hc hlt hb1 hb3
    rw [reward_amount_eq h hc hb1 hb3, Nat.mod_eq_of_lt hlt]
  · intro hle
    have h1 : effectiveTime now info.active_until = info.active_until := by
      unfold effectiveTime; split <;> omega
    have h2 : effectiveTime info.active_until info.active_until = info.active_until := by
      unfold effectiveTime; split <;> omega
    simp only [reward_amount, h, h1, h2]
  · unfold effectiveTime
    split <;> omega

/-- Witness for C8: the matured `sC8` position at `now = 300000` pays the
same two periods as at maturity `200000`. -/
theorem C8_maturity_clamp_witness :
    reward_amount sC8 300000 7 = .ok (2, 194) ∧
    reward_amount sC8 300000 7 = reward_amount sC8 200000 7 ∧
    effectiveTime 300000 200000 = min 300000 200000 := by
  have h := @C8_maturity_clamp sC8 300000 7
    { amount := 7000, started_at := 0, period := 12, active_until := 200000 }
    (by decide)
  exact ⟨h.1 (by decide) (by decide) (by decide) (by decide), h.2.1 (by decide), h.2.2⟩

/-- Claim C9: in any state where the accrual cursor exceeds the effective
time `min(now, active_until)`, the `u64` subtraction `time - last_claim` in
`reward_amount` underflows, so `available_rewards`, `passed_reward_periods`,
`all_stake_info`, `claim`, `withdraw`, a `stake` top-up and `extend` all trap
instead of returning a typed error. The witness reaches such a state through
public calls alone (claim advances the cursor, `emergency_withdraw` zeroes
`active_until` but leaves the cursor, a fresh `stake` keeps
`active_until = 0`). -/
theorem C9_cursor_underflow {s : Staking} {now a period value : Nat} {info : StakeInfo}
    (h : s.stakes a = some info)
    (hcur : effectiveTime now info.active_until < cursorOf s a) :
    available_rewards s now a = .trap ∧
    passed_reward_periods s now a = .trap ∧
    (info.amount ≠ 0 → all_stake_info s now a = .trap) ∧
    (0 < info.amount →
      claim s now a = .trap ∧
      withdraw s now a = .trap ∧
      (0 < value → stake s now a period value = .trap) ∧
      (info.active_until < now → extend s now a period = .trap)) := by
  have hra := reward_amount_trap h hcur
  have hcol : ∀ d, 0 < info.amount → _collect_rewards s now a d = .trap := by
    intro d hamt
    unfold _collect_rewards
    rw [h]
    simp [hamt, hra]
  refine ⟨?_, ?_, ?_, ?_⟩
  · unfold available_rewards; rw [hra]; rfl
  · unfold passed_reward_periods; rw [hra]; rfl
  · intro hne; unfold all_stake_info; rw [h]; simp [hne, hra]
  · intro hamt
    refine ⟨?_, ?_, ?_, ?_⟩
    · unfold claim; rw [h]; exact hcol false hamt
    · unfold withdraw; rw [h]; rw [hcol true hamt]; rfl
    · intro hv
      unfold stake
      rw [if_pos hv]
      simp only [h]
      rw [if_pos (by exact_mod_cast hamt.ne')]
      rw [hcol true hamt]
      rfl
    · intro hmat
      unfold extend
      rw [h]
      simp only [hamt, if_pos, hmat]
      rw [hcol true hamt]
      rfl

/-- Witness for C9: the state `sT6`, reached by the public trace
`update_rewards_pool; stake; extend; claim; emergency_withdraw; stake`, has
cursor `172800` above the effective time `0`, and every listed entry point
traps there. -/
theorem C9_cursor_underflow_witness :
    (update_rewards_pool sT0 1000).isOk = true ∧
    (stake sT1 0 7 6 100).isOk = true ∧
    (extend sT2 10 7 6).isOk = true ∧
    (claim sT3 172810 7).isOk = true ∧
    (emergency_withdraw sT4 7).isOk = true ∧
    (stake sT5 172900 7 6 50).isOk = true ∧
    sT6.last_reward_claims 7 = some 172800 ∧
    available_rewards sT6 173000 7 = .trap ∧
    passed_reward_periods sT6 173000 7 = .trap ∧
    all_stake_info sT6 173000 7 = .trap ∧
    claim sT6 173000 7 = .trap ∧
    withdraw sT6 173000 7 = .trap ∧
    stake sT6 173000 7 6 5 = .trap ∧
    extend sT6 173000 7 6 = .trap := by
  have h := @C9_cursor_underflow sT6 173000 7 6 5
    { amount := 50, started_at := 172900, period := 6, active_until := 0 }
    (by decide) (by decide)
  have h4 := h.2.2.2 (by decide)
  exact ⟨by decide, by decide, by decide, by decide, by decide, by decide, by decide,
    h.1, h.2.1, h.2.2.1 (by decide), h4.1, h4.2.1, h4.2.2.1 (by decide), h4.2.2.2 (by decide)⟩

/-- Claim C10: `get_staking_period` computes
`(active_until - started_at) / 86400` with no guard, so any stored position
with `active_until < started_at` makes the `u64` subtraction underflow and
the call traps rather than returning a value or the not-found error. The
witness shows such positions arise from a single genuine first deposit
(which stores `active_until = 0`, `started_at = now`). -/
theorem C10_staking_period_underflow {s : Staking} {a : Nat} {info : StakeInfo}
    (h : s.stakes a = some info) (hlt : info.active_until < info.started_at) :
    get_staking_period s a = .trap := by
  unfold get_staking_period
  rw [h]
  simp [csub64_trap hlt]

/-- Witness for C10: after a first deposit at time `1000` the stored position
is `⟨100, 1000, 6, 0⟩` and `get_staking_period` traps. -/
theorem C10_staking_period_underflow_witness :
    (stake (Staking.new 0 1) 1000 7 6 100).isOk = true ∧
    (okState (stake (Staking.new 0 1) 1000 7 6 100)).stakes 7 =
      some { amount := 100, started_at := 1000, period := 6, active_until := 0 } ∧
    get_staking_period (okState (stake (Staking.new 0 1) 1000 7 6 100)) 7 = .trap := by
  refine ⟨by decide, by decide, ?_⟩
  exact @C10_staking_period_underflow (okState (stake (Staking.new 0 1) 1000 7 6 100)) 7
    { amount := 100, started_at := 1000, period := 6, active_until := 0 }
    (by decide) (by decide)

/-- A successful call equals `.ok` of its `okState`. -/
theorem Outcome.eq_ok_okState {o : Outcome Staking} (h : o.isOk = true) :
    o = .ok (okState o) := by
  cases o <;> simp_all [okState, Outcome.isOk]

/-- Constructive form of `_stake` on the deposit path (`v ≠ 0`): the stored
`active_until` is whatever was stored before (`info.active_until`). -/
theorem _stake_ok_topup {s : Staking} {now a p v : Nat} {info : StakeInfo}
    (h : s.stakes a = some info) (hv : v ≠ 0) (hp : p ∈ s.available_periods)
    (hav : info.amount + v < U128M) (htv : s.total_staked + v < U128M) :
    _stake s now a p v =
      .ok { _set_stake_info s a (info.amount + v) p now info.active_until with
            total_staked := s.total_staked + v } := by
  unfold _stake
  simp only [h, cadd128_ok hav, Outcome.ok_bind, _validate_period, if_pos hp,
    if_neg hv, _set_stake_info, setStake]
  rw [cadd128_ok htv]
  rfl

/-- Constructive form of `_stake` on the extend path (`v = 0`): the stored
`active_until` is recomputed as `now + p * 86400 * 30`. -/
theorem _stake_ok_zero {s : Staking} {now a p : Nat} {info : StakeInfo}
    (h : s.stakes a = some info) (hp : p ∈ s.available_periods)
    (hai : info.amount < U128M) (hu : now + p * 86400 * 30 < U64M)
    (ht : s.total_staked < U128M) :
    _stake s now a p 0 =
      .ok { _set_stake_info s a info.amount p now (now + p * 86400 * 30) with
            total_staked := s.total_staked } := by
  have h2 : p * 86400 * 30 < U64M := by omega
  have h1 : p * 86400 < U64M :=
    lt_of_le_of_lt (Nat.le_mul_of_pos_right _ (by norm_num)) h2
  unfold _stake
  simp only [h, cadd128_ok (by omega : info.amount + 0 < U128M), Outcome.ok_bind,
    _validate_period, if_pos hp, if_pos rfl, cmul64_ok h1, cmul64_ok h2, cadd64_ok hu,
    _set_stake_info, setStake]
  rw [cadd128_ok (by omega : s.total_staked + 0 < U128M)]
  simp

/-- Claim C1 counterexample: a genuine first deposit (no existing record) at
`now = 1000` with `period = 6` stores `active_until = 0`, not
`now + period * 30 * 86400`: the `until` computation keys on the deposited
value being zero (the extend path), and `map_or(0, ...)` yields `0` for a
missing record. -/
theorem C1_counterexample :
    (stake (Staking.new 0 1) 1000 7 6 100).isOk = true ∧
    (okState (stake (Staking.new 0 1) 1000 7 6 100)).stakes 7 =
      some { amount := 100, started_at := 1000, period := 6, active_until := 0 } ∧
    (okState (stake (Staking.new 0 1) 1000 7 6 100)).stakes 7 ≠
      some { amount := 100, started_at := 1000, period := 6,
             active_until := 1000 + 6 * 30 * 86400 } := by
  refine ⟨by decide, by decide, by decide⟩

/-- Claim C1 (amended): every successful `stake(period, value)` with
`value > 0` stores `started_at = now` and `amount = old amount + value`, and
stores as `active_until` the previously stored value (`prevUntil`): unchanged
on a top-up, but `0` — not `now + period * 30 * 86400` — on a genuine first
deposit with no existing record. -/
theorem C1_stake_active_until {s s' : Staking} {now caller period value : Nat}
    (hv : 0 < value) (h : stake s now caller period value = .ok s') :
    s'.stakes caller = some
      { amount := prevAmount s caller + value, started_at := now, period := period,
        active_until := prevUntil s caller } ∧
    (s.stakes caller = none → prevUntil s caller = 0) := by
  constructor
  · unfold stake at h
    rw [if_pos hv] at h
    rw [Outcome.bind_eq_ok] at h
    obtain ⟨s1, hcol, hstk⟩ := h
    have hs1 : s1.stakes = s.stakes := by
      split at hcol
      · exact (_collect_rewards_ok_inv hcol).1
      · injection hcol with e; rw [← e]
    have hpa : prevAmount s1 caller = prevAmount s caller := by
      unfold prevAmount; rw [hs1]
    have hpu : prevUntil s1 caller = prevUntil s caller := by
      unfold prevUntil; rw [hs1]
    have hinv := (_stake_ok_inv hstk).1
    rw [hinv, hpa, hpu, if_neg hv.ne']
  · intro h0
    unfold prevUntil
    rw [h0]

/-- Witness for C1 (amended): a first deposit at `now = 1000`. -/
theorem C1_stake_active_until_witness :
    (okState (stake (Staking.new 0 1) 1000 7 6 100)).stakes 7 = some
      { amount := prevAmount (Staking.new 0 1) 7 + 100, started_at := 1000, period := 6,
        active_until := prevUntil (Staking.new 0 1) 7 } ∧
    ((Staking.new 0 1).stakes 7 = none → prevUntil (Staking.new 0 1) 7 = 0) :=
  C1_stake_active_until (by decide) (Outcome.eq_ok_okState (by decide))

/-- Claim C2 counterexample: after a full withdrawal the record is zeroed,
yet a second `withdraw` immediately after succeeds (`is_none()` is false for
the zeroed-but-present record) instead of failing with the `NoStake` error;
it transfers `0`. -/
theorem C2_counterexample :
    (withdraw sW1 5 7).isOk = true ∧
    sW2.stakes 7 = some { amount := 0, started_at := 0, period := 0, active_until := 0 } ∧
    (withdraw sW2 5 7).isOk = true ∧
    (okState (withdraw sW2 5 7)).native_transfers = [(7, 100), (7, 0)] := by
  refine ⟨by decide, by decide, by decide, by decide⟩

/-- Claim C2 (amended): a successful `withdraw` zeroes all four fields of
the position and native-transfers exactly the pre-withdrawal principal; but
a second `withdraw` on the now-zeroed record does NOT fail with `NoStake` —
the record still exists, so the call succeeds again and transfers `0`.
`NoStake` is returned only when no record exists at all. -/
theorem C2_withdraw_zero_and_repeat :
    (∀ (s s' : Staking) (now a : Nat) (info : StakeInfo),
      s.stakes a = some info → withdraw s now a = .ok s' →
      s'.stakes a = some { amount := 0, started_at := 0, period := 0, active_until := 0 } ∧
      s'.native_transfers = s.native_transfers ++ [(a, info.amount)]) ∧
    (∀ (s : Staking) (now a : Nat),
      s.stakes a = some { amount := 0, started_at := 0, period := 0, active_until := 0 } →
      (withdraw s now a).isOk = true ∧
      (okState (withdraw s now a)).native_transfers = s.native_transfers ++ [(a, 0)]) ∧
    (∀ (s : Staking) (now a : Nat),
      s.stakes a = none → withdraw s now a = .err "no stake") := by
  refine ⟨?_, ?_, ?_⟩
  · intro s s' now a info h hw
    simp only [withdraw, h] at hw
    rw [Outcome.bind_eq_ok] at hw
    obtain ⟨s1, hcol, hw⟩ := hw
    obtain ⟨hst, hap, hnat, hts⟩ := _collect_rewards_ok_inv hcol
    rw [hst] at hw
    simp only [h] at hw
    obtain ⟨h1, h2, h3, h4⟩ := _withdraw_ok_inv hw
    exact ⟨h1, by rw [h2, hnat]⟩
  · intro s now a h
    have hcol : _collect_rewards s now a true = .ok s := by
      simp only [_collect_rewards, h]
      simp
    have hwd : withdraw s now a = _withdraw s a 0 := by
      simp only [withdraw, h, hcol, Outcome.ok_bind]
    rw [hwd]
    exact ⟨rfl, rfl⟩
  · intro s now a h
    simp only [withdraw, h]

/-- Witness for C2 (amended): the concrete one-deposit trace `sW1`, its
withdrawal `sW2`, the repeated withdrawal, and the missing-record case. -/
theorem C2_withdraw_zero_and_repeat_witness :
    sW2.stakes 7 = some { amount := 0, started_at := 0, period := 0, active_until := 0 } ∧
    sW2.native_transfers = sW1.native_transfers ++ [(7, 100)] ∧
    (withdraw sW2 5 7).isOk = true ∧
    (okState (withdraw sW2 5 7)).native_transfers = sW2.native_transfers ++ [(7, 0)] ∧
    withdraw (Staking.new 0 1) 5 7 = .err "no stake" := by
  have h1 := C2_withdraw_zero_and_repeat.1 sW1 sW2 5 7
    { amount := 100, started_at := 5, period := 6, active_until := 0 }
    (by decide) (Outcome.eq_ok_okState (by decide))
  have h2 := C2_withdraw_zero_and_repeat.2.1 sW2 5 7 (by decide)
  have h3 := C2_withdraw_zero_and_repeat.2.2 (Staking.new 0 1) 5 7 (by decide)
  exact ⟨h1.1, h1.2, h2.1, h2.2, h3⟩

/-- Claim C3 counterexample: after the first successful deposit the accrual
cursor does NOT exist — `stake` never writes `last_reward_claims` (only a
successful reward collection does, and it is skipped for a first deposit). -/
theorem C3_counterexample :
    (stake (Staking.new 0 1) 0 7 6 100).isOk = true ∧
    (okState (stake (Staking.new 0 1) 0 7 6 100)).last_reward_claims 7 = none := by
  refine ⟨by decide, by decide⟩

/-- Claim C3 (amended): the accrual cursor is NOT created by a first deposit
(it stays absent until the first successful reward collection covering at
least one whole period); but once present it is only ever advanced: across
every operation of the public interface a present cursor entry remains
present and never decreases, and nothing ever removes it. -/
theorem C3_cursor_monotone :
    (∀ (s s' : Staking) (now caller period value : Nat),
      s.stakes caller = none → s.last_reward_claims caller = none →
      stake s now caller period value = .ok s' →
      s'.last_reward_claims caller = none) ∧
    (∀ (s s' : Staking) (now caller period value x c : Nat),
      (stake s now caller period value = .ok s' ∨ withdraw s now caller = .ok s' ∨
       emergency_withdraw s caller = .ok s' ∨ extend s now caller period = .ok s' ∨
       claim s now caller = .ok s' ∨ update_rewards_pool s value = .ok s') →
      s.last_reward_claims x = some c →
      ∃ c', s'.last_reward_claims x = some c' ∧ c ≤ c') := by
  constructor
  · intro s s' now caller period value h0 hc0 hst
    unfold stake at hst
    split at hst
    · rw [Outcome.bind_eq_ok] at hst
      obtain ⟨s1, hcol, hstk⟩ := hst
      simp only [h0] at hcol
      rw [if_neg (by simp)] at hcol
      injection hcol with e
      rw [(_stake_ok_inv hstk).2.1, ← e, hc0]
    · exact Outcome.noConfusion hst
  · intro s s' now caller period value x c hop hx
    rcases hop with hop | hop | hop | hop | hop | hop
    · -- stake
      unfold stake at hop
      split at hop
      · rw [Outcome.bind_eq_ok] at hop
        obtain ⟨s1, hcol, hstk⟩ := hop
        have hcur : ∃ c1, s1.last_reward_claims x = some c1 ∧ c ≤ c1 := by
          split at hcol
          · exact _collect_rewards_ok_cursor hcol hx
          · injection hcol with e; rw [← e]; exact ⟨c, hx, le_refl c⟩
        obtain ⟨c1, hc1, hle⟩ := hcur
        exact ⟨c1, by rw [(_stake_ok_inv hstk).2.1, hc1], hle⟩
      · exact Outcome.noConfusion hop
    · -- withdraw
      unfold withdraw at hop
      split at hop
      · exact Outcome.noConfusion hop
      · rw [Outcome.bind_eq_ok] at hop
        obtain ⟨s1, hcol, hop⟩ := hop
        obtain ⟨c1, hc1, hle⟩ := _collect_rewards_ok_cursor hcol hx
        split at hop
        · exact Outcome.noConfusion hop
        · exact ⟨c1, by rw [(_withdraw_ok_inv hop).2.2.1, hc1], hle⟩
    · -- emergency_withdraw
      unfold emergency_withdraw at hop
      split at hop
      · exact Outcome.noConfusion hop
      · rw [Outcome.bind_eq_ok] at hop
        obtain ⟨s1, hw, hop⟩ := hop
        injection hop with e
        refine ⟨c, ?_, le_refl c⟩
        rw [← e]
        simp only [setStake]
        rw [(_withdraw_ok_inv hw).2.2.1, hx]
    · -- extend
      unfold extend at hop
      split at hop
      · exact Outcome.noConfusion hop
      · split at hop
        · split at hop
          · rw [Outcome.bind_eq_ok] at hop
            obtain ⟨s1, hcol, hstk⟩ := hop
            obtain ⟨c1, hc1, hle⟩ := _collect_rewards_ok_cursor hcol hx
            exact ⟨c1, by rw [(_stake_ok_inv hstk).2.1, hc1], hle⟩
          · exact Outcome.noConfusion hop
        · exact Outcome.noConfusion hop
    · -- claim
      unfold claim at hop
      split at hop
      · exact Outcome.noConfusion hop
      · exact _collect_rewards_ok_cursor hop hx
    · -- update_rewards_pool
      unfold update_rewards_pool at hop
      split at hop
      · rw [Outcome.bind_eq_ok] at hop
        obtain ⟨nb, hnb, hop⟩ := hop
        injection hop with e
        exact ⟨c, by rw [← e]; exact hx, le_refl c⟩
      · exact Outcome.noConfusion hop

/-- Witness for C3 (amended): a concrete first deposit leaves the cursor
absent, and a concrete `withdraw` on the claimed trace state `sT4` (cursor at
`172800`) keeps the cursor present and non-decreased. -/
theorem C3_cursor_monotone_witness :
    (okState (stake (Staking.new 0 1) 0 7 6 100)).last_reward_claims 7 = none ∧
    (∃ c', (okState (withdraw sT4 172810 7)).last_reward_claims 7 = some c' ∧ 172800 ≤ c') := by
  constructor
  · exact C3_cursor_monotone.1 (Staking.new 0 1)
      (okState (stake (Staking.new 0 1) 0 7 6 100)) 0 7 6 100
      (by decide) (by decide) (Outcome.eq_ok_okState (by decide))
  · exact C3_cursor_monotone.2 sT4 (okState (withdraw sT4 172810 7)) 172810 7 6 0 7 172800
      (Or.inr (Or.inl (Outcome.eq_ok_okState (by decide)))) (by decide)

/-- Claim C4: with an active position (`amount > 0`) and zero elapsed whole
periods, a direct `claim()` trips `assert!(periods > 0, "too early")` and
traps (an unrecoverable abort, not a typed error), while the same reward
collection invoked from `stake`, `withdraw` or `extend` returns success
without touching the cursor or the rewards pool, and the enclosing operation
completes successfully. -/
theorem C4_zero_period_asymmetry {s : Staking} {now a period value : Nat} {info : StakeInfo}
    (h : s.stakes a = some info) (hamt : 0 < info.amount)
    (hc : cursorOf s a ≤ effectiveTime now info.active_until)
    (hz : effectiveTime now info.active_until - cursorOf s a < 86400)
    (hb1 : info.amount * s.reward_rate < U128M)
    (hv : 0 < value) (hp : period ∈ s.available_periods)
    (hav : info.amount + value < U128M) (htv : s.total_staked + value < U128M)
    (hmat : info.active_until < now) (hu : now + period * 86400 * 30 < U64M) :
    claim s now a = .trap ∧
    (withdraw s now a).isOk = true ∧
    (okState (withdraw s now a)).last_reward_claims = s.last_reward_claims ∧
    (okState (withdraw s now a)).rewards_balance = s.rewards_balance ∧
    (stake s now a period value).isOk = true ∧
    (okState (stake s now a period value)).last_reward_claims = s.last_reward_claims ∧
    (okState (stake s now a period value)).rewards_balance = s.rewards_balance ∧
    (extend s now a period).isOk = true ∧
    (okState (extend s now a period)).last_reward_claims = s.last_reward_claims ∧
    (okState (extend s now a period)).rewards_balance = s.rewards_balance := by
  have hcol := _collect_rewards_zero_nd h hamt hc hz hb1
  have hdir := _collect_rewards_zero_direct h hamt hc hz hb1
  have hclaim : claim s now a = .trap := by
    simp only [claim, h]
    exact hdir
  have hwd : withdraw s now a = _withdraw s a info.amount := by
    simp only [withdraw, h, hcol, Outcome.ok_bind]
  have hstk : stake s now a period value =
      .ok { _set_stake_info s a (info.amount + value) period now info.active_until with
            total_staked := s.total_staked + value } := by
    simp only [stake, if_pos hv, h]
    rw [if_pos hamt.ne', hcol]
    simp only [Outcome.ok_bind]
    exact _stake_ok_topup h hv.ne' hp hav htv
  have hext : extend s now a period =
      .ok { _set_stake_info s a info.amount period now (now + period * 86400 * 30) with
            total_staked := s.total_staked } := by
    simp only [extend, h, if_pos hamt, if_pos hmat, hcol, Outcome.ok_bind]
    exact _stake_ok_zero h hp (by omega) hu (by omega)
  refine ⟨hclaim, ?_, ?_, ?_, ?_, ?_, ?_, ?_, ?_, ?_⟩
  · rw [hwd]; rfl
  · rw [hwd]; rfl
  · rw [hwd]; rfl
  · rw [hstk]; rfl
  · rw [hstk]; rfl
  · rw [hstk]; rfl
  · rw [hext]; rfl
  · rw [hext]; rfl
  · rw [hext]; rfl

/-- Witness for C4: the hand-built active position `sW` (cursor `20`,
effective time `50`, so zero whole periods) at `now = 60`. -/
theorem C4_zero_period_asymmetry_witness :
    claim sW 60 7 = .trap ∧
    (withdraw sW 60 7).isOk = true ∧
    (okState (withdraw sW 60 7)).last_reward_claims = sW.last_reward_claims ∧
    (okState (withdraw sW 60 7)).rewards_balance = sW.rewards_balance ∧
    (stake sW 60 7 6 40).isOk = true ∧
    (okState (stake sW 60 7 6 40)).last_reward_claims = sW.last_reward_claims ∧
    (okState (stake sW 60 7 6 40)).rewards_balance = sW.rewards_balance ∧
    (extend sW 60 7 6).isOk = true ∧
    (okState (extend sW 60 7 6)).last_reward_claims = sW.last_reward_claims ∧
    (okState (extend sW 60 7 6)).rewards_balance = sW.rewards_balance :=
  @C4_zero_period_asymmetry sW 60 7 6 40
    { amount := 100, started_at := 0, period := 6, active_until := 50 }
    (by decide) (by decide) (by decide) (by decide) (by decide) (by decide) (by decide)
    (by decide) (by decide) (by decide) (by decide)

/-- Claim C7 counterexample: `extend` before maturity does not return a
recoverable `StillActive` error — `assert!(active_until < now, "still
active")` panics, i.e. the call traps. Concretely: the `sT3` position is
active until `15552010`, and `extend` at `now = 20` traps. -/
theorem C7_counterexample :
    extend sT3 20 7 6 = Outcome.trap ∧
    extend sT3 20 7 6 ≠ Outcome.err "still active" := by
  have h : extend sT3 20 7 6 = Outcome.trap := by rfl
  refine ⟨h, ?_⟩
  rw [h]
  intro hcontra
  exact Outcome.noConfusion hcontra

/-- Claim C7 (amended): for a position with `amount > 0`, `extend(period)`
traps (fatal assertion, not a recoverable typed error) whenever
`active_until ≥ now`; once `active_until < now` — given a valid period, a
successful forced collection and no overflow — it succeeds, leaving `amount`
unchanged while setting `started_at = now` and
`active_until = now + period * 30 * 86400`. -/
theorem C7_extend_behavior {s s1 : Staking} {now a period : Nat} {info : StakeInfo}
    (h : s.stakes a = some info) (hamt : 0 < info.amount) :
    (now ≤ info.active_until → extend s now a period = .trap) ∧
    (info.active_until < now →
      _collect_rewards s now a true = .ok s1 →
      period ∈ s.available_periods →
      info.amount < U128M →
      now + period * 86400 * 30 < U64M →
      s.total_staked < U128M →
      (extend s now a period).isOk = true ∧
      (okState (extend s now a period)).stakes a =
        some { amount := info.amount, started_at := now, period := period,
               active_until := now + period * 30 * 86400 }) := by
  constructor
  · intro hle
    simp only [extend, h, if_pos hamt, if_neg (by omega : ¬ info.active_until < now)]
  · intro hmat hcol hp hai hu ht
    obtain ⟨hst, hap, hnat, hts⟩ := _collect_rewards_ok_inv hcol
    have h1 : s1.stakes a = some info := by rw [hst, h]
    have hz := @_stake_ok_zero s1 now a period info h1 (by rw [hap]; exact hp) hai hu
      (by rw [hts]; exact ht)
    have hext : extend s now a period =
        .ok { _set_stake_info s1 a info.amount period now (now + period * 86400 * 30) with
              total_staked := s1.total_staked } := by
      simp only [extend, h, if_pos hamt, if_pos hmat, hcol, Outcome.ok_bind]
      exact hz
    rw [hext]
    refine ⟨rfl, ?_⟩
    simp only [okState, _set_stake_info, setStake]
    simp only [if_true]
    rw [mul_right_comm period 86400 30]

/-- Witness for C7 (amended): the instantly-matured first deposit `sT2`
(`active_until = 0`): `extend` at `now = 0` traps, `extend` at `now = 10`
succeeds and stores `active_until = 10 + 6 * 30 * 86400`. -/
theorem C7_extend_behavior_witness :
    extend sT2 0 7 6 = .trap ∧
    (extend sT2 10 7 6).isOk = true ∧
    (okState (extend sT2 10 7 6)).stakes 7 =
      some { amount := 100, started_at := 10, period := 6,
             active_until := 10 + 6 * 30 * 86400 } := by
  have hA := (@C7_extend_behavior sT2 sT2 0 7 6
    { amount := 100, started_at := 0, period := 6, active_until := 0 }
    (by decide) (by decide)).1 (by decide)
  have hB := (@C7_extend_behavior sT2 sT2 10 7 6
    { amount := 100, started_at := 0, period := 6, active_until := 0 }
    (by decide) (by decide)).2 (by decide) (by rfl) (by decide) (by decide) (by decide)
    (by decide)
  exact ⟨hA, hB.1, hB.2⟩
